import Mathlib

/-!
Verification of the HERE Maps API helper repository
(`template/utilities/geospatial/HERE_Maps_API/geocoding.py` and
`template/utilities/geospatial/HERE_Maps_API/routing.py`).

The HTTP transport is an external collaborator: each Python function builds a
request, performs one blocking call, and reshapes the parsed JSON response.
The shallow embedding therefore models, for each function,
(a) the request-building prefix that runs before the network call (returning
either the request parameters or the raised error), and
(b) the response-processing suffix as a pure function of the parsed response.
Python dictionaries produced for the caller are modelled as ordered
association lists over a small value type `PyVal`; Python floats are modelled
as exact rationals; Python `set` objects are modelled as insertion-ordered
duplicate-free lists (CPython's iteration order of small string sets is
unspecified, so only the membership structure is meaningful); raising is
modelled with `Except String`.
-/

/-- A scalar value appearing in one of the flat output dictionaries: a string,
a number (Python ints and floats, modelled as rationals), or Python `None`. -/
inductive PyVal where
  | str (s : String)
  | num (q : Rat)
  | none
deriving DecidableEq, Repr

/-- Looks up a key in an ordered association-list record (a Python dict). -/
def lookupKey (k : String) (rec : List (String × PyVal)) : Option PyVal :=
  (rec.find? (fun p => p.1 == k)).map (fun p => p.2)

/-- Python `d.get(key)` for an optional string field, as a `PyVal`. -/
def optStrVal : Option String → PyVal
  | some s => .str s
  | Option.none => .none

/-- Python `d.get(key)` for an optional numeric field, as a `PyVal`. -/
def optRatVal : Option Rat → PyVal
  | some q => .num q
  | Option.none => .none

/-- Rendering of a Python float into a string, used only to build the
`"latitude,longitude"` display string; no claim inspects its exact form. -/
def pyFloatStr (q : Rat) : String := toString q

/-- Effectful `map` over `Except`, mirroring a Python `for` loop that appends
to an output list and may raise partway through. -/
def mapExcept {α β : Type} (f : α → Except String β) : List α → Except String (List β)
  | [] => .ok []
  | x :: xs =>
    match f x with
    | .error e => .error e
    | .ok y =>
      match mapExcept f xs with
      | .error e => .error e
      | .ok ys => .ok (y :: ys)

/-! ## Geocoding module (`geocoding.py`) -/

/-- A `position` sub-object of a geocoding item: `{lat, lng}`. -/
structure GeoPosition where
  lat : Rat
  lng : Rat
deriving DecidableEq, Repr

/-- The `address` sub-object used by `get_latlong`: `label` and `countryName`
are accessed with `[...]` (required), `state` with `.get` (optional). -/
structure GeoAddress where
  label : String
  countryName : String
  state : Option String
deriving DecidableEq, Repr

/-- The `scoring.fieldScore` sub-object of a geocode item; every field is read
with `.get`, and `streets`, when present, is a list indexed at `[0]`. -/
structure FieldScore where
  country : Option Rat
  state : Option Rat
  district : Option Rat
  city : Option Rat
  houseNumber : Option Rat
  postalCode : Option Rat
  streets : Option (List Rat)
deriving DecidableEq, Repr

/-- The `scoring` sub-object of a geocode item: `queryScore` is required. -/
structure Scoring where
  queryScore : Rat
  fieldScore : FieldScore
deriving DecidableEq, Repr

/-- One element of the `items` array of a forward-geocode response. -/
structure GeocodeItem where
  position : GeoPosition
  address : GeoAddress
  scoring : Scoring
deriving DecidableEq, Repr

/-- `fieldScore.get('streets')[0] if fieldScore.get('streets') is not None
else None`: indexing an empty list raises `IndexError`. -/
def streetScore : Option (List Rat) → Except String PyVal
  | Option.none => .ok .none
  | some [] => .error "IndexError: list index out of range"
  | some (x :: _) => .ok (.num x)

/-- The summary record `get_latlong` builds for one geocode item, with the
keys in source order. -/
def mkLatLongRecord (it : GeocodeItem) : Except String (List (String × PyVal)) :=
  match streetScore it.scoring.fieldScore.streets with
  | .error e => .error e
  | .ok street =>
    .ok [("lat", .num it.position.lat),
         ("long", .num it.position.lng),
         ("string", .str (pyFloatStr it.position.lat ++ "," ++ pyFloatStr it.position.lng)),
         ("country", .str it.address.countryName),
         ("state", optStrVal it.address.state),
         ("address", .str it.address.label),
         ("relevance", .num it.scoring.queryScore),
         ("match_quality_country", optRatVal it.scoring.fieldScore.country),
         ("match_quality_state", optRatVal it.scoring.fieldScore.state),
         ("match_quality_district", optRatVal it.scoring.fieldScore.district),
         ("match_quality_city", optRatVal it.scoring.fieldScore.city),
         ("match_quality_street", street),
         ("match_quality_number", optRatVal it.scoring.fieldScore.houseNumber),
         ("match_quality_postal_code", optRatVal it.scoring.fieldScore.postalCode)]

/-- The sentinel record `get_latlong` returns when the response's `items`
array is empty. -/
def latlongSentinel : List (String × PyVal) :=
  [("lat", .str ""),
   ("long", .str ""),
   ("string", .str "ERROR"),
   ("country", .str ""),
   ("state", .str ""),
   ("address", .str ""),
   ("score", .num 0)]

/-- Result of `get_latlong`: either a list of flat records (the sentinel list
or the summarized list), or the raw `items` array when `summarize` is false. -/
inductive GeocodeOut where
  | records (l : List (List (String × PyVal)))
  | raw (items : List GeocodeItem)
deriving DecidableEq, Repr

/-- Response processing of `get_latlong(address, api_key, summarize, limit)`:
the `limit` argument is only sent to the API in the request parameters and is
never consulted while processing the response `items`. -/
def get_latlong_process (items : List GeocodeItem) (summarize : Bool) (limit : Nat) :
    Except String GeocodeOut :=
  if items.length = 0 then
    .ok (.records [latlongSentinel])
  else if summarize then
    match mapExcept mkLatLongRecord items with
    | .error e => .error e
    | .ok recs => .ok (.records recs)
  else
    .ok (.raw items)


/-- The `Location.Address` sub-object of the legacy (6.2) geocoder:
`Label` and `Country` are required, `State` and `City` are read with `.get`. -/
structure AltAddress where
  Label : String
  Country : String
  State : Option String
  City : Option String
deriving DecidableEq, Repr

/-- The `MatchQuality` sub-object of a legacy geocoder result; each field is
read with `.get`, and `Street`, when present, is a list indexed at `[0]`. -/
structure AltMatchQuality where
  Country : Option Rat
  State : Option Rat
  District : Option Rat
  City : Option Rat
  HouseNumber : Option Rat
  PostalCode : Option Rat
  Street : Option (List Rat)
deriving DecidableEq, Repr

/-- The `Location` sub-object of a legacy geocoder result. -/
structure AltLocation where
  DisplayPosition : GeoPosition
  Address : AltAddress
deriving DecidableEq, Repr

/-- One element of `Response.View[0].Result` of a legacy geocoder response. -/
structure AltResult where
  Location : AltLocation
  Relevance : Rat
  MatchQuality : AltMatchQuality
deriving DecidableEq, Repr

/-- One element of `Response.View`; the only key ever read is `Result`
(line 122 of the source reads the nonexistent key `Results`, which is
modelled as the corresponding `KeyError`). -/
structure AltView where
  Result : List AltResult
deriving DecidableEq, Repr

/-- The summary record `get_latlong_alternative` builds for one result, with
the keys in source order. -/
def mkAltRecord (it : AltResult) : Except String (List (String × PyVal)) :=
  match streetScore it.MatchQuality.Street with
  | .error e => .error e
  | .ok street =>
    .ok [("lat", .num it.Location.DisplayPosition.lat),
         ("long", .num it.Location.DisplayPosition.lng),
         ("string", .str (pyFloatStr it.Location.DisplayPosition.lat ++ "," ++
            pyFloatStr it.Location.DisplayPosition.lng)),
         ("country", .str it.Location.Address.Country),
         ("state", optStrVal it.Location.Address.State),
         ("city", optStrVal it.Location.Address.City),
         ("address", .str it.Location.Address.Label),
         ("relevance", .num it.Relevance),
         ("match_quality_country", optRatVal it.MatchQuality.Country),
         ("match_quality_state", optRatVal it.MatchQuality.State),
         ("match_quality_district", optRatVal it.MatchQuality.District),
         ("match_quality_city", optRatVal it.MatchQuality.City),
         ("match_quality_street", street),
         ("match_quality_number", optRatVal it.MatchQuality.HouseNumber),
         ("match_quality_postal_code", optRatVal it.MatchQuality.PostalCode)]

/-- The sentinel record `get_latlong_alternative` returns when
`Response.View` is empty (same fields as `latlongSentinel` but with a
`relevance` key instead of `score`). -/
def altSentinel : List (String × PyVal) :=
  [("lat", .str ""),
   ("long", .str ""),
   ("string", .str "ERROR"),
   ("country", .str ""),
   ("state", .str ""),
   ("address", .str ""),
   ("relevance", .num 0)]

/-- Result of `get_latlong_alternative`. -/
inductive AltOut where
  | records (l : List (List (String × PyVal)))
  | raw (items : List AltResult)
deriving DecidableEq, Repr

/-- Response processing of `get_latlong_alternative`: the summarize loop runs
over `range(min(limit, len(out[0]['Result'])))`; the non-summarized branch
reads `out[0]['Results']`, a key that does not exist (`KeyError`). -/
def get_latlong_alternative_process (view : List AltView) (summarize : Bool) (limit : Nat) :
    Except String AltOut :=
  match view with
  | [] => .ok (.records [altSentinel])
  | v0 :: _ =>
    if summarize then
      match mapExcept mkAltRecord (v0.Result.take limit) with
      | .error e => .error e
      | .ok recs => .ok (.records recs)
    else
      .error "KeyError: Results"

/-- The `address` sub-object used by the reverse-geocode and browse
functions: `label` and `countryName` are required, the rest read with `.get`
(except `browse_address`, which reads `postalCode` with `[...]`). -/
structure RevAddress where
  label : String
  countryName : String
  state : Option String
  city : Option String
  street : Option String
  postalCode : Option String
deriving DecidableEq, Repr

/-- One element of the `items` array of a reverse-geocode or browse
response. -/
structure RevItem where
  position : GeoPosition
  address : RevAddress
deriving DecidableEq, Repr

/-- Result of `get_address` / `browse_address`. -/
inductive RevOut where
  | records (l : List (List (String × PyVal)))
  | raw (items : List RevItem)
deriving DecidableEq, Repr

/-- The sentinel record `get_address` returns when the response has no
`items` key or an empty `items` array. -/
def revSentinel : List (String × PyVal) :=
  [("address", .str ""),
   ("country", .str ""),
   ("state", .str ""),
   ("city", .str ""),
   ("street", .str ""),
   ("postalCode", .str ""),
   ("latitude", .str "ERROR"),
   ("longitude", .str "ERROR")]

/-- The summary record `get_address` builds for one item. -/
def mkRevRecord (it : RevItem) : List (String × PyVal) :=
  [("address", .str it.address.label),
   ("country", .str it.address.countryName),
   ("state", optStrVal it.address.state),
   ("city", optStrVal it.address.city),
   ("street", optStrVal it.address.street),
   ("postalCode", optStrVal it.address.postalCode),
   ("latitude", .num it.position.lat),
   ("longitude", .num it.position.lng)]

/-- Response processing of `get_address(latlong, api_key, summarize, limit)`;
the `items` argument is `None` when the response has no `items` key. -/
def get_address_process (items : Option (List RevItem)) (summarize : Bool) (limit : Nat) :
    RevOut :=
  match items with
  | Option.none => .records [revSentinel]
  | some l =>
    if l.length = 0 then .records [revSentinel]
    else if summarize then .records (l.map mkRevRecord)
    else .raw l

/-- Python `d[key]` on an optional field: raises `KeyError` when absent. -/
def requireKey {α : Type} (o : Option α) (key : String) : Except String α :=
  match o with
  | some v => .ok v
  | Option.none => .error ("KeyError: " ++ key)

/-- The summary record `browse_address` builds for one item: `postalCode` is
read with `[...]` (required), and the `city` key is (per the source) filled
from `this_address.get('state')`. -/
def mkBrowseRecord (it : RevItem) : Except String (List (String × PyVal)) :=
  match requireKey it.address.postalCode "postalCode" with
  | .error e => .error e
  | .ok pc =>
    .ok [("address", .str it.address.label),
         ("country", .str it.address.countryName),
         ("state", optStrVal it.address.state),
         ("city", optStrVal it.address.state),
         ("street", optStrVal it.address.street),
         ("postalCode", .str pc),
         ("latitude", .num it.position.lat),
         ("longitude", .num it.position.lng)]

/-- Response processing of `browse_address`: the zero-items branch builds its
return record from the loop variables `this_address` / `this_item` of a
previous (nonexistent) iteration, so on a genuinely empty response it raises
`NameError` instead of returning a sentinel. -/
def browse_address_process (items : List RevItem) (summarize : Bool) (limit : Nat) :
    Except String RevOut :=
  if items.length = 0 then
    .error "NameError: name this_address is not defined"
  else if summarize then
    match mapExcept mkBrowseRecord items with
    | .error e => .error e
    | .ok recs => .ok (.records recs)
  else
    .ok (.raw items)

/-! ## Routing module (`routing.py`) -/

/-- The query parameters `get_route_info` hands to `requests.get`; producing
this value marks the point where the network call is issued. The dictionary
key `return` is modelled by the field `returnValue`. -/
structure RouteParams where
  transportMode : String
  origin : String
  destination : String
  departureTime : String
  routingMode : String
  spans : Option String
  returnValue : String
deriving DecidableEq, Repr

/-- The request-building prefix of `get_route_info`, everything before
`requests.get`: the `transportMode` assertion, then the `if borders:` block
(Python truthiness: `None` and the empty string both skip it), where an
unrecognized truthy value raises `ValueError`. -/
def get_route_info_request (origin destination : String) (transportMode : String)
    (departureTime : String) (routingMode : String) (borders : Option String) :
    Except String RouteParams :=
  if transportMode ∈ ["pedestrian", "car", "truck", "bicycle", "scooter"] then
    let base : String → Option String → RouteParams := fun rv sp =>
      { transportMode := transportMode, origin := origin, destination := destination,
        departureTime := departureTime, routingMode := routingMode,
        spans := sp, returnValue := rv }
    match borders with
    | Option.none => .ok (base "summary" Option.none)
    | some b =>
      if b = "" then .ok (base "summary" Option.none)
      else if b = "country" then .ok (base "summary,polyline" (some "countryCode"))
      else if b = "state" then .ok (base "summary,polyline" (some "countryCode,stateCode"))
      else .error "ValueError: Inappropriate value for borders: Has to be None, country or state"
  else
    .error "AssertionError: Invalid value for transportMode"

/-- The validation-and-delegation prefix of `get_any_routing_info`: its own
assertions on `mile_or_meter`, `summary_only` and `transportMode` run first,
then `get_route_info` is called (with default `departureTime`/`routingMode`),
whose own checks still precede the network call. -/
def get_any_routing_info_request (origin destination : String) (transportMode : String)
    (summary_only : Bool) (mile_or_meter : String) (borders : Option String) :
    Except String RouteParams :=
  if mile_or_meter ∈ ["mile", "meter"] then
    if summary_only ∈ [true, false] then
      if transportMode ∈ ["pedestrian", "car", "truck", "bicycle", "scooter"] then
        get_route_info_request origin destination transportMode "any" "fast" borders
      else .error "AssertionError: Invalid value for transportMode"
    else .error "AssertionError: Invalid value for summary_only"
  else .error "AssertionError: Invalid value for mile_or_meter"

/-- An element of a section's `preActions`/`postActions` arrays; only its
`duration` is read. -/
structure PyAction where
  duration : Int
deriving DecidableEq, Repr

/-- A `span` sub-record of a route section; both codes are read with `.get`
and appended only when truthy (so an empty-string code is skipped). -/
structure RouteSpan where
  countryCode : Option String
  stateCode : Option String
deriving DecidableEq, Repr

/-- The `transport` sub-object of a section. Its `mode` is read with `.get`;
it is modelled as required, since every HERE route section carries one and no
claim concerns its absence. -/
structure SectionTransport where
  mode : String
deriving DecidableEq, Repr

/-- The `summary` sub-object of a section, restricted to the two fields the
code reads and sums: `duration` (seconds) and `length` (meters, a number that
the mile branch divides in place). -/
structure SectionSummary where
  duration : Int
  length : Rat
deriving DecidableEq, Repr

/-- One element of `route['sections']`. -/
structure RouteSection where
  preActions : Option (List PyAction)
  postActions : Option (List PyAction)
  transport : SectionTransport
  spans : Option (List RouteSpan)
  summary : SectionSummary
deriving DecidableEq, Repr

/-- One element of the response's `routes` array. -/
structure Route where
  sections : List RouteSection
deriving DecidableEq, Repr

/-- Sum of the `duration` fields of an optional action list; Python guards
with `if section.get('preActions'):`, and an absent or empty list contributes
zero either way. -/
def sumActions : Option (List PyAction) → Int
  | Option.none => 0
  | some l => l.foldl (fun a p => a + p.duration) 0

/-- The `local_countries` list collected from a section's spans: the
`countryCode` of each span, kept when truthy, in span order. -/
def localCountriesOf : Option (List RouteSpan) → List String
  | Option.none => []
  | some spans =>
    spans.foldl (fun acc sp =>
      match sp.countryCode with
      | some c => if c ≠ "" then acc ++ [c] else acc
      | Option.none => acc) []

/-- The `local_states` list collected from a section's spans. -/
def localStatesOf : Option (List RouteSpan) → List String
  | Option.none => []
  | some spans =>
    spans.foldl (fun acc sp =>
      match sp.stateCode with
      | some c => if c ≠ "" then acc ++ [c] else acc
      | Option.none => acc) []

/-- Python `set.union` with a fresh element, modelled with insertion order. -/
def insertNew (l : List String) (x : String) : List String :=
  if x ∈ l then l else l ++ [x]

/-- Python `s.union(set(xs))` for a set of strings, modelled with insertion
order. -/
def setUnionList (l : List String) (xs : List String) : List String :=
  xs.foldl insertNew l

/-- `"|".join(xs)`. -/
def pipeJoin (xs : List String) : String := String.intercalate "|" xs

/-- `length / 1609.34` when miles were requested, `length` unchanged
otherwise. -/
def convLength (mile_or_meter : String) (l : Rat) : Rat :=
  if mile_or_meter = "mile" then l / (1609.34 : Rat) else l

/-- The section after the loop body ran: when miles are requested the
section's own `summary.length` is overwritten in place. -/
def mutSecOf (mile_or_meter : String) (s : RouteSection) : RouteSection :=
  { s with summary := { s.summary with length := convLength mile_or_meter s.summary.length } }

/-- One row of the per-section summary table (`section_item` in the source):
the keys `route`, `section`, `mode`, optionally `countries`/`states`, then
the section summary's `duration`/`length` merged in by `update`, then
`extra duration`. -/
structure SectionItem where
  route : Nat
  sectionId : Nat
  mode : String
  countries : Option String
  states : Option String
  duration : Int
  length : Rat
  extraDuration : Int
deriving DecidableEq, Repr

/-- The `section_item` dictionary the loop appends for section `i`. -/
def sectionItemOf (mile_or_meter : String) (i : Nat) (s : RouteSection) : SectionItem :=
  { route := 0,
    sectionId := i,
    mode := s.transport.mode,
    countries :=
      if (localCountriesOf s.spans).length ≠ 0 then some (pipeJoin (localCountriesOf s.spans))
      else Option.none,
    states :=
      if (localStatesOf s.spans).length ≠ 0 then some (pipeJoin (localStatesOf s.spans))
      else Option.none,
    duration := s.summary.duration,
    length := convLength mile_or_meter s.summary.length,
    extraDuration := sumActions s.preActions + sumActions s.postActions }

/-- The rows the loop appends for the sections `secs`, the first one carrying
index `i`. -/
def sectionItemsFrom (m : String) (i : Nat) : List RouteSection → List SectionItem
  | [] => []
  | s :: rest => sectionItemOf m i s :: sectionItemsFrom m (i + 1) rest

/-- The loop state of `process_routing`'s section loop: the accumulating
table, totals and sets, the value the variable `local_states` holds after the
loop (`none` when the loop never ran and the name is unbound), and the
sections as mutated in place. -/
structure LoopAcc where
  results : List SectionItem := []
  sumDuration : Int := 0
  sumLength : Rat := 0
  modes : List String := []
  countries : List String := []
  states : List String := []
  lastLocalStates : Option (List String) := Option.none
  mutSections : List RouteSection := []

/-- One iteration of `process_routing`'s section loop. -/
def processSection (mile_or_meter : String) (i : Nat) (s : RouteSection) (acc : LoopAcc) :
    LoopAcc :=
  let additional := sumActions s.preActions + sumActions s.postActions
  { results := acc.results ++ [sectionItemOf mile_or_meter i s],
    sumDuration := acc.sumDuration + s.summary.duration + additional,
    sumLength := acc.sumLength + convLength mile_or_meter s.summary.length,
    modes := insertNew acc.modes s.transport.mode,
    countries := setUnionList acc.countries (localCountriesOf s.spans),
    states := setUnionList acc.states (localStatesOf s.spans),
    lastLocalStates := some (localStatesOf s.spans),
    mutSections := acc.mutSections ++ [mutSecOf mile_or_meter s] }

/-- The section loop of `process_routing`, enumerating from index `i`. -/
def processSectionsFrom (mile_or_meter : String) (i : Nat) :
    List RouteSection → LoopAcc → LoopAcc
  | [], acc => acc
  | s :: rest, acc =>
    processSectionsFrom mile_or_meter (i + 1) rest (processSection mile_or_meter i s acc)

/-- The top-level `summary_output` dictionary: `table`, `duration`, `modes`,
`length` always; `countries` only when the global country set is non-empty;
`states` only when the guard `len(local_states)` (the last section's local
list, per the source) is non-zero, with the value joined from the global
state set. -/
structure SummaryOutput where
  table : List SectionItem
  duration : Int
  modes : String
  length : Rat
  countries : Option String
  states : Option String
deriving DecidableEq, Repr

/-- What `out['summary']` holds on the mutated response: the per-section
table (always assigned right after the loop), overwritten by the full
`summary_output` on the non-summary-only path. -/
inductive AttachedSummary where
  | table (t : List SectionItem)
  | full (s : SummaryOutput)
deriving DecidableEq, Repr

/-- A parsed routing response: `status` is read with `.get` (present only on
error payloads), `routes` is required, and `summaryAttached` records the
`summary` key that `process_routing` writes into the response dictionary. -/
structure RouteResponse where
  status : Option String
  routes : List Route
  summaryAttached : Option AttachedSummary := Option.none
deriving DecidableEq, Repr

/-- What `process_routing` returns: the `{'duration': None, 'length': None}`
dictionary on the error/no-route paths, the `summary_output` dictionary when
`summary_only` is true, or the (mutated) response otherwise. -/
inductive ProcessResult where
  | nulls
  | summaryOnly (s : SummaryOutput)
  | fullOut (r : RouteResponse)
deriving DecidableEq, Repr

/-- The pair a call to `process_routing` leaves behind: the caller's response
object as mutated in place, and the returned value. -/
structure ProcessOut where
  mutated : RouteResponse
  result : ProcessResult
deriving DecidableEq, Repr

/-- `process_routing(out, summary_only, mile_or_meter)`: error-status check,
zero-routes check, the section loop over the first route, attachment of the
summary table to `out`, construction of `summary_output` (whose `states`
guard reads the loop variable `local_states`, raising `NameError` when the
first route has no sections), and the final `summary_only` branch. -/
def process_routing (out : RouteResponse) (summary_only : Bool) (mile_or_meter : String) :
    Except String ProcessOut :=
  if out.status.isSome then .ok { mutated := out, result := .nulls }
  else
    match out.routes with
    | [] => .ok { mutated := out, result := .nulls }
    | route0 :: rest =>
      let acc := processSectionsFrom mile_or_meter 0 route0.sections {}
      match acc.lastLocalStates with
      | Option.none => .error "NameError: name local_states is not defined"
      | some lastLocal =>
        let mutated1 : RouteResponse :=
          { out with routes := { route0 with sections := acc.mutSections } :: rest,
                     summaryAttached := some (.table acc.results) }
        let summaryOutput : SummaryOutput :=
          { table := acc.results,
            duration := acc.sumDuration,
            modes := pipeJoin acc.modes,
            length := acc.sumLength,
            countries :=
              if acc.countries.length ≠ 0 then some (pipeJoin acc.countries) else Option.none,
            states :=
              if lastLocal.length ≠ 0 then some (pipeJoin acc.states) else Option.none }
        if summary_only then
          .ok { mutated := mutated1, result := .summaryOnly summaryOutput }
        else
          let mutated2 : RouteResponse :=
            { mutated1 with summaryAttached := some (.full summaryOutput) }
          .ok { mutated := mutated2, result := .fullOut mutated2 }

/-- Extracts the `summary_output` of a summary-only `process_routing` call. -/
def summaryOnlyOf : Except String ProcessOut → Option SummaryOutput
  | .ok { mutated := _, result := .summaryOnly s } => some s
  | _ => Option.none

/-- A route section whose single span carries both a country and a state
code. -/
def spanSec : RouteSection :=
  { preActions := Option.none,
    postActions := Option.none,
    transport := { mode := "car" },
    spans := some [{ countryCode := some "USA", stateCode := some "CA" }],
    summary := { duration := 100, length := 1000 } }

/-- A route section with no spans at all. -/
def plainSec : RouteSection :=
  { preActions := Option.none,
    postActions := Option.none,
    transport := { mode := "car" },
    spans := Option.none,
    summary := { duration := 50, length := 500 } }

/-- A routing response whose first section contributes a state code while the
last one contributes none. -/
def statesBugResponse : RouteResponse :=
  { status := Option.none, routes := [{ sections := [spanSec, plainSec] }] }

/-- A minimal concrete geocode item used to exercise the geocoding
theorems. -/
def sampleGeoItem : GeocodeItem :=
  { position := { lat := 1, lng := 2 },
    address := { label := "L", countryName := "US", state := Option.none },
    scoring :=
      { queryScore := 1,
        fieldScore :=
          { country := Option.none, state := Option.none, district := Option.none,
            city := Option.none, houseNumber := Option.none, postalCode := Option.none,
            streets := Option.none } } }

/-! ## Matrix routing and the pairwise-combination generator -/

/-- `df['index_col'] = range(df.shape[0])` starting at `i`: each element
paired with its 0-based position. -/
def indexFrom {α : Type} (i : Nat) : List α → List (α × Nat)
  | [] => []
  | x :: xs => (x, i) :: indexFrom (i + 1) xs

/-- The `pd.merge(a.assign(key=0), b.assign(key=0), on='key')` cartesian
join: every left row paired with every right row, left-major. -/
def cartesianJoin {α β : Type} : List α → List β → List (α × β)
  | [], _ => []
  | a :: as', l2 => l2.map (fun b => (a, b)) ++ cartesianJoin as' l2

/-- The lexicographic comparison `sort_values(by=[index1, index2])` uses on a
joined row: first by the left index, then by the right index. -/
def idxLe {α β : Type} (a b : (α × Nat) × (β × Nat)) : Bool :=
  decide (a.1.2 < b.1.2) || (a.1.2 == b.1.2 && decide (a.2.2 ≤ b.2.2))

/-- Insertion of one row into a sorted list of rows. -/
def insertSorted {T : Type} (le : T → T → Bool) (x : T) : List T → List T
  | [] => [x]
  | y :: ys => if le x y then x :: y :: ys else y :: insertSorted le x ys

/-- `sort_values`: the keys arising here are distinct index pairs, so any
correct sort produces the same row order; modelled as insertion sort. -/
def sortValues {T : Type} (le : T → T → Bool) : List T → List T
  | [] => []
  | x :: xs => insertSorted le x (sortValues le xs)

/-- An origin or destination table row: the `latitude`/`longitude` columns. -/
structure Coord where
  latitude : Rat
  longitude : Rat
deriving DecidableEq, Repr

/-- The `matrix` object of a matrix-routing response: parallel arrays plus
the origin/destination counts echoed by the API (`errorCodes` may be
omitted). -/
structure MatrixData where
  travelTimes : List Int
  distances : List Int
  errorCodes : Option (List Int)
  numOrigins : Nat
  numDestinations : Nat
deriving DecidableEq, Repr

/-- A parsed matrix-routing response; `status` is read with `.get` and only
error payloads carry it; `regionDefinition` is an opaque payload echoed into
the metadata. -/
structure MatrixResponse where
  status : Option String
  matrixId : String
  matrix : MatrixData
  regionDefinition : String
deriving DecidableEq, Repr

/-- One row of the matrix-routing output table, in column order: the origin
columns with suffix `_x`, `orig_index`, the destination columns with suffix
`_y`, `dest_index`, then the three attached arrays. -/
structure MatrixRow where
  latitude_x : Rat
  longitude_x : Rat
  orig_index : Nat
  latitude_y : Rat
  longitude_y : Rat
  dest_index : Nat
  travelTime : Int
  distance : Int
  errorCode : Int
deriving DecidableEq, Repr

/-- The metadata record returned next to the output table. -/
structure MatrixMeta where
  matrixId : String
  numOrigins : Nat
  numDestinations : Nat
  regionDefinition : String
deriving DecidableEq, Repr

/-- Builds one output row from a joined row and the three column values. -/
def mkMatrixRow (p : (Coord × Nat) × (Coord × Nat)) (t d e : Int) : MatrixRow :=
  { latitude_x := p.1.1.latitude, longitude_x := p.1.1.longitude, orig_index := p.1.2,
    latitude_y := p.2.1.latitude, longitude_y := p.2.1.longitude, dest_index := p.2.2,
    travelTime := t, distance := d, errorCode := e }

/-- Positional assignment of the three parallel arrays as columns of the
joined table (callers guard that all lengths agree). -/
def attachColumns : List ((Coord × Nat) × (Coord × Nat)) → List Int → List Int → List Int →
    List MatrixRow
  | p :: ps, t :: ts, d :: ds, e :: es => mkMatrixRow p t d e :: attachColumns ps ts ds es
  | _, _, _, _ => []

/-- The `errorCodes` column: the scalar 0 broadcast over all `n` rows,
overwritten by the API's array when present. -/
def errorCodesColumn (ec : Option (List Int)) (n : Nat) : List Int :=
  match ec with
  | Option.none => List.replicate n 0
  | some e => e

/-- The response-processing suffix of `calculate_matrix_routing`: on an error
status it logs and returns `None` (modelled `.ok none`); otherwise
destinations default to origins, both tables get 0-based index columns, the
cartesian join is sorted by `(orig_index, dest_index)`, the parallel arrays
are attached positionally (a length mismatch is a pandas `ValueError`), and
the metadata record is assembled from the response. -/
def calculate_matrix_routing (origins : List Coord) (destinations : Option (List Coord))
    (out : MatrixResponse) : Except String (Option (List MatrixRow × MatrixMeta)) :=
  if out.status.isSome then .ok Option.none
  else
    let dests := match destinations with
      | Option.none => origins
      | some d => d
    let joined := sortValues idxLe (cartesianJoin (indexFrom 0 origins) (indexFrom 0 dests))
    let n := joined.length
    if out.matrix.travelTimes.length = n ∧ out.matrix.distances.length = n ∧
        (errorCodesColumn out.matrix.errorCodes n).length = n then
      .ok (some
        (attachColumns joined out.matrix.travelTimes out.matrix.distances
          (errorCodesColumn out.matrix.errorCodes n),
         { matrixId := out.matrixId, numOrigins := out.matrix.numOrigins,
           numDestinations := out.matrix.numDestinations,
           regionDefinition := out.regionDefinition }))
    else
      .error "ValueError: Length of values does not match length of index"

/-- `all_combinations(data, data_to, unique, include_same)`: both inputs get
0-based index columns, the cartesian join is sorted by `(Index1, Index2)`,
and only in the single-list case the `unique` filter (`Index1 <= Index2`) and
the `include_same` filter (`Index1 != Index2`) are applied. A row
`((a, i), (b, j))` stands for the columns `(Input1, Index1, Input2,
Index2) = (a, i, b, j)`. -/
def all_combinations {α : Type} (data : List α) (data_to : Option (List α))
    (unique include_same : Bool) : List ((α × Nat) × (α × Nat)) :=
  let dataset1 := indexFrom 0 data
  let dataset2 := indexFrom 0 (match data_to with
    | Option.none => data
    | some d => d)
  let output := sortValues idxLe (cartesianJoin dataset1 dataset2)
  match data_to with
  | Option.none =>
    let output1 := if unique then output.filter (fun r => decide (r.1.2 ≤ r.2.2)) else output
    let output2 :=
      if !include_same then output1.filter (fun r => decide (r.1.2 ≠ r.2.2)) else output1
    output2
  | some _ => output

/-! ## List infrastructure lemmas -/

theorem indexFrom_length {α : Type} (i : Nat) (l : List α) :
    (indexFrom i l).length = l.length := by
  induction l generalizing i with
  | nil => rfl
  | cons x xs ih => simp [indexFrom, ih]

theorem mem_indexFrom_snd_ge {α : Type} {i : Nat} {l : List α} {p : α × Nat}
    (h : p ∈ indexFrom i l) : i ≤ p.2 := by
  induction l generalizing i with
  | nil => simp [indexFrom] at h
  | cons x xs ih =>
    simp only [indexFrom, List.mem_cons] at h
    rcases h with h | h
    · subst h; exact Nat.le_refl i
    · exact Nat.le_of_succ_le (ih h)

theorem pairwise_indexFrom {α : Type} (i : Nat) (l : List α) :
    (indexFrom i l).Pairwise (fun a b => a.2 < b.2) := by
  induction l generalizing i with
  | nil => exact List.Pairwise.nil
  | cons x xs ih =>
    refine List.Pairwise.cons ?_ (ih (i + 1))
    intro q hq
    exact Nat.lt_of_succ_le (mem_indexFrom_snd_ge hq)

theorem cartesianJoin_length {α β : Type} (l1 : List α) (l2 : List β) :
    (cartesianJoin l1 l2).length = l1.length * l2.length := by
  induction l1 with
  | nil => simp [cartesianJoin]
  | cons a as ih => simp [cartesianJoin, ih, Nat.succ_mul, Nat.add_comm]

theorem mem_cartesianJoin_fst {α β : Type} {l1 : List α} {l2 : List β} {p : α × β}
    (h : p ∈ cartesianJoin l1 l2) : p.1 ∈ l1 := by
  induction l1 with
  | nil => simp [cartesianJoin] at h
  | cons a as ih =>
    simp only [cartesianJoin, List.mem_append, List.mem_map] at h
    rcases h with ⟨b, _, hb⟩ | h
    · subst hb; exact List.mem_cons_self a as
    · exact List.mem_cons_of_mem a (ih h)

theorem pairwise_cartesianJoin_idxLe {α β : Type} (os : List α) (ds : List β) (a b : Nat) :
    (cartesianJoin (indexFrom a os) (indexFrom b ds)).Pairwise
      (fun x y => idxLe x y = true) := by
  induction os generalizing a with
  | nil => exact List.Pairwise.nil
  | cons o os' ih =>
    simp only [indexFrom, cartesianJoin]
    refine List.pairwise_append.mpr ⟨?_, ih (a + 1), ?_⟩
    · refine List.pairwise_map.mpr ?_
      refine (pairwise_indexFrom b ds).imp ?_
      intro d1 d2 hlt
      simp only [idxLe, Bool.or_eq_true, Bool.and_eq_true, beq_iff_eq, decide_eq_true_eq,
        true_and]
      omega
    · intro x hx y hy
      rcases List.mem_map.mp hx with ⟨d, _, hd⟩
      have hy1 := mem_indexFrom_snd_ge (mem_cartesianJoin_fst hy)
      subst hd
      simp only [idxLe, Bool.or_eq_true, Bool.and_eq_true, beq_iff_eq, decide_eq_true_eq]
      omega

theorem insertSorted_of_le {T : Type} (le : T → T → Bool) (x y : T) (ys : List T)
    (h : le x y = true) : insertSorted le x (y :: ys) = x :: y :: ys := by
  simp [insertSorted, h]

theorem sortValues_eq_self {T : Type} (le : T → T → Bool) {l : List T}
    (h : l.Pairwise (fun a b => le a b = true)) : sortValues le l = l := by
  induction l with
  | nil => rfl
  | cons x xs ih =>
    rcases List.pairwise_cons.mp h with ⟨hx, hxs⟩
    have : sortValues le (x :: xs) = insertSorted le x (sortValues le xs) := rfl
    rw [this, ih hxs]
    cases xs with
    | nil => rfl
    | cons y ys => exact insertSorted_of_le le x y ys (hx y (List.mem_cons_self y ys))

theorem indexFrom_getElem? {α : Type} (l : List α) (i k : Nat) :
    (indexFrom i l)[k]? = l[k]?.map (fun x => (x, i + k)) := by
  induction l generalizing i k with
  | nil => simp [indexFrom]
  | cons x xs ih =>
    cases k with
    | zero => simp [indexFrom]
    | succ k' =>
      simp only [indexFrom, List.getElem?_cons_succ, ih]
      cases xs[k']? with
      | none => rfl
      | some v => simp [Nat.add_comm, Nat.add_left_comm]

theorem cartesianJoin_getElem? {α β : Type} {l1 : List α} {l2 : List β} {k : Nat}
    {x : α} {y : β} (hx : l1[k / l2.length]? = some x) (hy : l2[k % l2.length]? = some y) :
    (cartesianJoin l1 l2)[k]? = some (x, y) := by
  induction l1 generalizing k with
  | nil => simp at hx
  | cons a as ih =>
    have hm : 0 < l2.length := by
      rcases Nat.eq_zero_or_pos l2.length with h0 | h0
      · rw [List.length_eq_zero.mp h0] at hy; simp at hy
      · exact h0
    by_cases hk : k < l2.length
    · have hdiv : k / l2.length = 0 := Nat.div_eq_of_lt hk
      have hmod : k % l2.length = k := Nat.mod_eq_of_lt hk
      rw [hdiv] at hx
      simp only [List.getElem?_cons_zero, Option.some.injEq] at hx
      rw [hmod] at hy
      have hlen : k < (l2.map (fun b => (a, b))).length := by simpa using hk
      simp only [cartesianJoin]
      rw [List.getElem?_append_left hlen, List.getElem?_map, hy, hx]
      rfl
    · have hge : l2.length ≤ k := Nat.le_of_not_lt hk
      have hk' : k = (k - l2.length) + l2.length := (Nat.sub_add_cancel hge).symm
      have hdiv : k / l2.length = (k - l2.length) / l2.length + 1 := by
        rw [hk', Nat.add_div_right _ hm]; simp
      have hmod : k % l2.length = (k - l2.length) % l2.length := by
        conv_lhs => rw [hk']
        exact Nat.add_mod_right _ _
      rw [hdiv] at hx
      simp only [List.getElem?_cons_succ] at hx
      rw [hmod] at hy
      have hlen : (l2.map (fun b => (a, b))).length ≤ k := by simpa using hge
      simp only [cartesianJoin]
      rw [List.getElem?_append_right hlen]
      simp only [List.length_map]
      exact ih hx hy

theorem attachColumns_getElem? {ps : List ((Coord × Nat) × (Coord × Nat))}
    {ts ds es : List Int} {k : Nat} {p : (Coord × Nat) × (Coord × Nat)} {t d e : Int}
    (hp : ps[k]? = some p) (ht : ts[k]? = some t) (hd : ds[k]? = some d)
    (he : es[k]? = some e) :
    (attachColumns ps ts ds es)[k]? = some (mkMatrixRow p t d e) := by
  induction ps generalizing ts ds es k with
  | nil => simp at hp
  | cons p0 ps' ih =>
    cases ts with
    | nil => simp at ht
    | cons t0 ts' =>
      cases ds with
      | nil => simp at hd
      | cons d0 ds' =>
        cases es with
        | nil => simp at he
        | cons e0 es' =>
          cases k with
          | zero =>
            simp only [List.getElem?_cons_zero, Option.some.injEq] at hp ht hd he
            subst hp; subst ht; subst hd; subst he
            simp [attachColumns]
          | succ k' =>
            simp only [List.getElem?_cons_succ] at hp ht hd he
            simpa only [attachColumns, List.getElem?_cons_succ] using ih hp ht hd he

/-! ## Structural lemmas about the section loop of `process_routing` -/

theorem processSectionsFrom_mutSections (m : String) (i : Nat) (secs : List RouteSection)
    (acc : LoopAcc) :
    (processSectionsFrom m i secs acc).mutSections =
      acc.mutSections ++ secs.map (mutSecOf m) := by
  induction secs generalizing i acc with
  | nil => simp [processSectionsFrom]
  | cons s rest ih =>
    simp [processSectionsFrom, ih, processSection, List.append_assoc]

theorem processSectionsFrom_results (m : String) (i : Nat) (secs : List RouteSection)
    (acc : LoopAcc) :
    (processSectionsFrom m i secs acc).results = acc.results ++ sectionItemsFrom m i secs := by
  induction secs generalizing i acc with
  | nil => simp [processSectionsFrom, sectionItemsFrom]
  | cons s rest ih =>
    simp [processSectionsFrom, ih, processSection, sectionItemsFrom, List.append_assoc]

theorem processSectionsFrom_sumLength (m : String) (i : Nat) (secs : List RouteSection)
    (acc : LoopAcc) :
    (processSectionsFrom m i secs acc).sumLength =
      acc.sumLength + (secs.map (fun s => convLength m s.summary.length)).sum := by
  induction secs generalizing i acc with
  | nil => simp [processSectionsFrom]
  | cons s rest ih =>
    simp [processSectionsFrom, ih, processSection, add_assoc]

theorem processSectionsFrom_sumDuration (m : String) (i : Nat) (secs : List RouteSection)
    (acc : LoopAcc) :
    (processSectionsFrom m i secs acc).sumDuration =
      acc.sumDuration +
        (secs.map (fun s =>
          s.summary.duration + (sumActions s.preActions + sumActions s.postActions))).sum := by
  induction secs generalizing i acc with
  | nil => simp [processSectionsFrom]
  | cons s rest ih =>
    simp [processSectionsFrom, ih, processSection, add_assoc]

theorem processSectionsFrom_lastLocalStates (m : String) (i : Nat) (s : RouteSection)
    (rest : List RouteSection) (acc : LoopAcc) :
    (processSectionsFrom m i (s :: rest) acc).lastLocalStates =
      some (localStatesOf (rest.getLastD s).spans) := by
  induction rest generalizing i s acc with
  | nil => simp [processSectionsFrom, processSection]
  | cons r rs ih =>
    rw [List.getLastD_cons]
    exact ih (i + 1) r (processSection m i s acc)

theorem sectionItemsFrom_map_length (m : String) (i : Nat) (secs : List RouteSection) :
    (sectionItemsFrom m i secs).map SectionItem.length =
      secs.map (fun s => convLength m s.summary.length) := by
  induction secs generalizing i with
  | nil => rfl
  | cons s rest ih => simp [sectionItemsFrom, sectionItemOf, ih]

/-! ## Claim theorems -/

/-- C5: for every forward-geocode response with an empty `items` array,
`get_latlong` returns a single record whose `string` field is `"ERROR"`,
whose `lat` and `long` fields are the empty string, and whose remaining
fields are blank or zero, for any `summarize` flag and `limit`. -/
theorem claim_C5_latlong_empty_sentinel (summarize : Bool) (limit : Nat) :
    get_latlong_process [] summarize limit = .ok (.records [latlongSentinel]) ∧
    lookupKey "string" latlongSentinel = some (.str "ERROR") ∧
    lookupKey "lat" latlongSentinel = some (.str "") ∧
    lookupKey "long" latlongSentinel = some (.str "") ∧
    lookupKey "country" latlongSentinel = some (.str "") ∧
    lookupKey "state" latlongSentinel = some (.str "") ∧
    lookupKey "address" latlongSentinel = some (.str "") ∧
    lookupKey "score" latlongSentinel = some (.num 0) :=
  ⟨rfl, rfl, rfl, rfl, rfl, rfl, rfl, rfl⟩

/-- C2: the claimed empty-result contract holds for forward geocoding and
reverse geocoding, but `browse_address` violates it: on a structurally valid
response with zero items it raises a `NameError` (its sentinel branch reads
the loop variables `this_address`/`this_item` that were never bound) instead
of returning a placeholder record. -/
theorem claim_C2_browse_empty_raises :
    browse_address_process [] true 1 =
      .error "NameError: name this_address is not defined" ∧
    browse_address_process [] false 1 =
      .error "NameError: name this_address is not defined" ∧
    get_latlong_process [] true 1 = .ok (.records [latlongSentinel]) ∧
    get_address_process (some []) true 1 = .records [revSentinel] ∧
    get_address_process Option.none true 1 = .records [revSentinel] :=
  ⟨rfl, rfl, rfl, rfl, rfl⟩

/-- C7: a routing response with a top-level error status, or with an empty
`routes` array, makes `process_routing` return the
`{'duration': None, 'length': None}` dictionary (`ProcessResult.nulls`),
untouched input, for every `summary_only` flag and unit choice. -/
theorem claim_C7_no_route_nulls (out : RouteResponse) (summary_only : Bool)
    (mile_or_meter : String) (h : out.status.isSome = true ∨ out.routes = []) :
    process_routing out summary_only mile_or_meter =
      .ok { mutated := out, result := .nulls } := by
  rcases h with h | h
  · simp [process_routing, h]
  · by_cases hs : out.status.isSome
    · simp [process_routing, hs]
    · simp [process_routing, hs, h]

theorem claim_C7_no_route_nulls_witness :
    (process_routing { status := some "error", routes := [] } true "mile" =
      .ok { mutated := { status := some "error", routes := [] }, result := .nulls }) ∧
    (process_routing { status := Option.none, routes := [] } false "meter" =
      .ok { mutated := { status := Option.none, routes := [] }, result := .nulls }) :=
  ⟨claim_C7_no_route_nulls _ true "mile" (Or.inl rfl),
   claim_C7_no_route_nulls _ false "meter" (Or.inr rfl)⟩

/-- C4: the top-level summary's `countries` entry is guarded by the global
country set, but the `states` entry is guarded by `len(local_states)` — the
LAST section's local list — so on a response whose first section traverses a
state but whose last section has no spans, the `states` entry is absent even
though a section contributed state codes (while `countries` is present as
claimed). -/
theorem claim_C4_states_guard_bug :
    (summaryOnlyOf (process_routing statesBugResponse true "meter")).map
        SummaryOutput.states = some Option.none ∧
    (summaryOnlyOf (process_routing statesBugResponse true "meter")).map
        SummaryOutput.countries = some (some "USA") ∧
    localStatesOf spanSec.spans = ["CA"] ∧
    localStatesOf plainSec.spans = [] ∧
    statesBugResponse.routes = [{ sections := [spanSec, plainSec] }] := by
  refine ⟨?_, ?_, rfl, rfl, rfl⟩ <;> rfl

/-- C8: with a single input list, `unique=True` and `include_same=False`,
`all_combinations` returns exactly the cartesian rows with `Index1 < Index2`,
in an order sorted by `(Index1, Index2)`; with two distinct lists, neither
filter is applied and every cartesian combination is kept in that same
order; on `[A, B, C]` the single-list case yields exactly the three pairs
`(A,B), (A,C), (B,C)`. -/
theorem claim_C8_all_combinations {α : Type} (data dto : List α) (u i : Bool) :
    all_combinations data Option.none true false =
      (cartesianJoin (indexFrom 0 data) (indexFrom 0 data)).filter
        (fun r => decide (r.1.2 < r.2.2)) ∧
    (all_combinations data Option.none true false).Pairwise
      (fun x y => idxLe x y = true) ∧
    all_combinations data (some dto) u i =
      cartesianJoin (indexFrom 0 data) (indexFrom 0 dto) ∧
    all_combinations ["A", "B", "C"] Option.none true false =
      [(("A", 0), ("B", 1)), (("A", 0), ("C", 2)), (("B", 1), ("C", 2))] := by
  have hpair := pairwise_cartesianJoin_idxLe data data 0 0
  have hpair2 := pairwise_cartesianJoin_idxLe data dto 0 0
  have h1 : all_combinations data Option.none true false =
      (cartesianJoin (indexFrom 0 data) (indexFrom 0 data)).filter
        (fun r => decide (r.1.2 < r.2.2)) := by
    simp only [all_combinations, Bool.not_false, if_true, sortValues_eq_self idxLe hpair,
      List.filter_filter]
    refine List.filter_congr ?_
    intro x _
    by_cases h : x.1.2 < x.2.2
    · simp [h, Nat.ne_of_lt h, Nat.le_of_lt h]
    · by_cases h2 : x.1.2 = x.2.2
      · simp [h2]
      · simp [h, h2]
        omega
  refine ⟨h1, ?_, ?_, ?_⟩
  · rw [h1]
    exact hpair.filter _
  · simp only [all_combinations, sortValues_eq_self idxLe hpair2]
  · rfl

/-- C6 counterexample: `borders = ""` is outside `{None, "country", "state"}`
yet raises nothing — Python's `if borders:` treats the falsy empty string
like `None`, so the request is built and the network call proceeds. -/
theorem claim_C6_counterexample :
    ((some "" : Option String) ≠ Option.none ∧
     (some "" : Option String) ≠ some "country" ∧
     (some "" : Option String) ≠ some "state") ∧
    get_any_routing_info_request "o" "d" "car" true "mile" (some "") =
      .ok { transportMode := "car", origin := "o", destination := "d",
            departureTime := "any", routingMode := "fast",
            spans := Option.none, returnValue := "summary" } :=
  ⟨⟨by decide, by decide, by decide⟩, rfl⟩

/-- C6 amended: an invalid transport mode, an invalid `mile_or_meter`, or a
TRUTHY `borders` value outside `{"country", "state"}` makes
`get_any_routing_info` raise before any request parameters are produced (a
falsy `borders` such as the empty string is treated as no-borders instead,
and `summary_only` is a boolean in this model, so its assertion cannot
fire). -/
theorem claim_C6_invalid_enum_raises (origin destination transportMode mile_or_meter : String)
    (summary_only : Bool) (borders : Option String)
    (h : transportMode ∉ ["pedestrian", "car", "truck", "bicycle", "scooter"] ∨
         mile_or_meter ∉ ["mile", "meter"] ∨
         ∃ b, borders = some b ∧ b ≠ "" ∧ b ∉ ["country", "state"]) :
    ∃ e, get_any_routing_info_request origin destination transportMode summary_only
        mile_or_meter borders = .error e := by
  rcases h with h | h | ⟨b, hb, hne, hnotin⟩
  · by_cases hm : mile_or_meter ∈ ["mile", "meter"]
    · refine ⟨"AssertionError: Invalid value for transportMode", ?_⟩
      have hso : summary_only ∈ [true, false] := by cases summary_only <;> simp
      simp [get_any_routing_info_request, hm, hso, h]
    · exact ⟨"AssertionError: Invalid value for mile_or_meter",
        by simp [get_any_routing_info_request, hm]⟩
  · exact ⟨"AssertionError: Invalid value for mile_or_meter",
      by simp [get_any_routing_info_request, h]⟩
  · by_cases hm : mile_or_meter ∈ ["mile", "meter"]
    · by_cases htm : transportMode ∈ ["pedestrian", "car", "truck", "bicycle", "scooter"]
      · refine ⟨"ValueError: Inappropriate value for borders: Has to be None, country or state",
          ?_⟩
        have hso : summary_only ∈ [true, false] := by cases summary_only <;> simp
        simp only [List.mem_cons, List.not_mem_nil, or_false] at hnotin
        push_neg at hnotin
        simp [get_any_routing_info_request, get_route_info_request, hm, hso, htm, hb, hne,
          hnotin.1, hnotin.2]
      · exact ⟨"AssertionError: Invalid value for transportMode",
          by simp [get_any_routing_info_request, hm, htm]⟩
    · exact ⟨"AssertionError: Invalid value for mile_or_meter",
        by simp [get_any_routing_info_request, hm]⟩

theorem claim_C6_invalid_enum_raises_witness :
    (∃ e, get_any_routing_info_request "o" "d" "rocket" true "mile" Option.none = .error e) ∧
    (∃ e, get_any_routing_info_request "o" "d" "car" true "furlong" Option.none = .error e) ∧
    (∃ e, get_any_routing_info_request "o" "d" "car" true "mile" (some "planet") = .error e) :=
  ⟨claim_C6_invalid_enum_raises "o" "d" "rocket" "mile" true Option.none (Or.inl (by decide)),
   claim_C6_invalid_enum_raises "o" "d" "car" "furlong" true Option.none
     (Or.inr (Or.inl (by decide))),
   claim_C6_invalid_enum_raises "o" "d" "car" "mile" true (some "planet")
     (Or.inr (Or.inr ⟨"planet", rfl, by decide, by decide⟩))⟩

/-- Closed form of a successful summary-only `process_routing` call, shared
by the unit-conversion and frame-effect claims: on a clean response whose
first route has sections `s0 :: ss`, the call succeeds and both the mutated
response and the returned summary are determined by the section-loop
lemmas. -/
theorem process_routing_summaryOnly_eq (out : RouteResponse) (m : String) (r : Route)
    (rest : List Route) (s0 : RouteSection) (ss : List RouteSection)
    (h1 : out.status = Option.none) (h2 : out.routes = r :: rest)
    (hsec : r.sections = s0 :: ss) :
    process_routing out true m =
      .ok { mutated :=
              { out with
                routes := { r with sections := (s0 :: ss).map (mutSecOf m) } :: rest,
                summaryAttached := some (.table (sectionItemsFrom m 0 (s0 :: ss))) },
            result := .summaryOnly
              { table := sectionItemsFrom m 0 (s0 :: ss),
                duration :=
                  ((s0 :: ss).map (fun s =>
                    s.summary.duration +
                      (sumActions s.preActions + sumActions s.postActions))).sum,
                modes := pipeJoin (processSectionsFrom m 0 (s0 :: ss) {}).modes,
                length := ((s0 :: ss).map (fun s => convLength m s.summary.length)).sum,
                countries :=
                  if (processSectionsFrom m 0 (s0 :: ss) {}).countries.length ≠ 0 then
                    some (pipeJoin (processSectionsFrom m 0 (s0 :: ss) {}).countries)
                  else Option.none,
                states :=
                  if (localStatesOf (ss.getLastD s0).spans).length ≠ 0 then
                    some (pipeJoin (processSectionsFrom m 0 (s0 :: ss) {}).states)
                  else Option.none } } := by
  have hlast := processSectionsFrom_lastLocalStates m 0 s0 ss {}
  have hres := processSectionsFrom_results m 0 (s0 :: ss) {}
  have hmut := processSectionsFrom_mutSections m 0 (s0 :: ss) {}
  have hlen := processSectionsFrom_sumLength m 0 (s0 :: ss) {}
  have hdur := processSectionsFrom_sumDuration m 0 (s0 :: ss) {}
  simp only [process_routing, h1, Option.isSome_none, Bool.false_eq_true, if_false, h2, hsec,
    hlast, hres, hmut, hlen, hdur, List.nil_append, zero_add, if_true]

theorem process_routing_summaryOnly_eq_witness :
    process_routing { status := Option.none, routes := [{ sections := [plainSec] }] }
        true "meter" =
      .ok { mutated :=
              { status := Option.none,
                routes := [{ sections := [plainSec].map (mutSecOf "meter") }],
                summaryAttached := some (.table (sectionItemsFrom "meter" 0 [plainSec])) },
            result := .summaryOnly
              { table := sectionItemsFrom "meter" 0 [plainSec],
                duration :=
                  ([plainSec].map (fun s =>
                    s.summary.duration +
                      (sumActions s.preActions + sumActions s.postActions))).sum,
                modes := pipeJoin (processSectionsFrom "meter" 0 [plainSec] {}).modes,
                length := ([plainSec].map (fun s => convLength "meter" s.summary.length)).sum,
                countries :=
                  if (processSectionsFrom "meter" 0 [plainSec] {}).countries.length ≠ 0 then
                    some (pipeJoin (processSectionsFrom "meter" 0 [plainSec] {}).countries)
                  else Option.none,
                states :=
                  if (localStatesOf (([] : List RouteSection).getLastD plainSec).spans).length
                      ≠ 0 then
                    some (pipeJoin (processSectionsFrom "meter" 0 [plainSec] {}).states)
                  else Option.none } } :=
  process_routing_summaryOnly_eq _ "meter" _ [] plainSec [] rfl rfl rfl

/-- C9: flattening with the `"mile"` flag gives every per-section length as
`L / 1609.34` and flattening with `"meter"` leaves every length unchanged,
and in both cases the summary's total length is the sum of the per-section
lengths in that same unit. -/
theorem claim_C9_length_units (out : RouteResponse) (r : Route) (rest : List Route)
    (h1 : out.status = Option.none) (h2 : out.routes = r :: rest)
    (h3 : r.sections ≠ []) :
    (∃ p s, process_routing out true "mile" = .ok p ∧ p.result = .summaryOnly s ∧
       s.table.map SectionItem.length =
         r.sections.map (fun sec => sec.summary.length / (1609.34 : Rat)) ∧
       s.length =
         (r.sections.map (fun sec => sec.summary.length / (1609.34 : Rat))).sum) ∧
    (∃ p s, process_routing out true "meter" = .ok p ∧ p.result = .summaryOnly s ∧
       s.table.map SectionItem.length = r.sections.map (fun sec => sec.summary.length) ∧
       s.length = (r.sections.map (fun sec => sec.summary.length)).sum) := by
  obtain ⟨s0, ss, hsec⟩ : ∃ s0 ss, r.sections = s0 :: ss := by
    cases hs : r.sections with
    | nil => exact absurd hs h3
    | cons a l => exact ⟨a, l, rfl⟩
  constructor
  · refine ⟨_, _, process_routing_summaryOnly_eq out "mile" r rest s0 ss h1 h2 hsec, rfl,
      ?_, ?_⟩
    · rw [hsec, sectionItemsFrom_map_length]
      simp [convLength]
    · rw [hsec]
      simp [convLength]
  · refine ⟨_, _, process_routing_summaryOnly_eq out "meter" r rest s0 ss h1 h2 hsec, rfl,
      ?_, ?_⟩
    · rw [hsec, sectionItemsFrom_map_length]
      simp [convLength]
    · rw [hsec]
      simp [convLength]

theorem claim_C9_length_units_witness :
    (∃ p s, process_routing { status := Option.none, routes := [{ sections := [plainSec] }] }
          true "mile" = .ok p ∧
       p.result = .summaryOnly s ∧
       s.table.map SectionItem.length =
         [plainSec].map (fun sec => sec.summary.length / (1609.34 : Rat)) ∧
       s.length = ([plainSec].map (fun sec => sec.summary.length / (1609.34 : Rat))).sum) ∧
    (∃ p s, process_routing { status := Option.none, routes := [{ sections := [plainSec] }] }
          true "meter" = .ok p ∧
       p.result = .summaryOnly s ∧
       s.table.map SectionItem.length = [plainSec].map (fun sec => sec.summary.length) ∧
       s.length = ([plainSec].map (fun sec => sec.summary.length)).sum) :=
  claim_C9_length_units { status := Option.none, routes := [{ sections := [plainSec] }] }
    { sections := [plainSec] } [] rfl rfl (by decide)

/-- C10: `process_routing` mutates its input: on any response with at least
one route (whose first route has at least one section), a `summary` key is
attached to the passed-in response even when the caller asked for the
summary only, and with the `"mile"` flag every section's own summary length
is overwritten in place with its value divided by 1609.34. -/
theorem claim_C10_mutates_input (out : RouteResponse) (summary_only : Bool) (r : Route)
    (rest : List Route) (h1 : out.status = Option.none) (h2 : out.routes = r :: rest)
    (h3 : r.sections ≠ []) :
    ∃ p, process_routing out summary_only "mile" = .ok p ∧
      p.mutated.summaryAttached.isSome = true ∧
      p.mutated.routes = { r with sections := r.sections.map (mutSecOf "mile") } :: rest ∧
      ∀ sec : RouteSection,
        (mutSecOf "mile" sec).summary.length = sec.summary.length / (1609.34 : Rat) := by
  obtain ⟨s0, ss, hsec⟩ : ∃ s0 ss, r.sections = s0 :: ss := by
    cases hs : r.sections with
    | nil => exact absurd hs h3
    | cons a l => exact ⟨a, l, rfl⟩
  have hconv : ∀ sec : RouteSection,
      (mutSecOf "mile" sec).summary.length = sec.summary.length / (1609.34 : Rat) := by
    intro sec
    simp [mutSecOf, convLength]
  cases summary_only with
  | true =>
    refine ⟨_, process_routing_summaryOnly_eq out "mile" r rest s0 ss h1 h2 hsec, rfl,
      ?_, hconv⟩
    rw [hsec]
  | false =>
    have hlast := processSectionsFrom_lastLocalStates "mile" 0 s0 ss {}
    have hmut := processSectionsFrom_mutSections "mile" 0 (s0 :: ss) {}
    simp only [process_routing, h1, Option.isSome_none, Bool.false_eq_true, if_false, h2,
      hsec, hlast]
    refine ⟨_, rfl, rfl, ?_, hconv⟩
    simp only [hmut, List.nil_append]

theorem claim_C10_mutates_input_witness :
    (∃ p, process_routing { status := Option.none, routes := [{ sections := [plainSec] }] }
        true "mile" = .ok p ∧
      p.mutated.summaryAttached.isSome = true ∧
      p.mutated.routes =
        [{ sections := [plainSec].map (mutSecOf "mile") }] ∧
      ∀ sec : RouteSection,
        (mutSecOf "mile" sec).summary.length = sec.summary.length / (1609.34 : Rat)) ∧
    (∃ p, process_routing { status := Option.none, routes := [{ sections := [plainSec] }] }
        false "mile" = .ok p ∧
      p.mutated.summaryAttached.isSome = true ∧
      p.mutated.routes =
        [{ sections := [plainSec].map (mutSecOf "mile") }] ∧
      ∀ sec : RouteSection,
        (mutSecOf "mile" sec).summary.length = sec.summary.length / (1609.34 : Rat)) :=
  ⟨claim_C10_mutates_input { status := Option.none, routes := [{ sections := [plainSec] }] }
      true { sections := [plainSec] } [] rfl rfl (by decide),
   claim_C10_mutates_input { status := Option.none, routes := [{ sections := [plainSec] }] }
      false { sections := [plainSec] } [] rfl rfl (by decide)⟩

/-- When the body never raises, the loop modelled by `mapExcept` succeeds and
produces exactly one output per input, in input order. -/
theorem mapExcept_ok_of_forall {α β : Type} (f : α → Except String β) (l : List α)
    (h : ∀ x ∈ l, ∃ y, f x = .ok y) :
    ∃ ys, mapExcept f l = .ok ys ∧ ys.length = l.length ∧
      ∀ (j : Nat) (x : α), l[j]? = some x → ∃ y, ys[j]? = some y ∧ f x = .ok y := by
  induction l with
  | nil =>
    refine ⟨[], rfl, rfl, ?_⟩
    intro j x hx
    simp at hx
  | cons x xs ih =>
    obtain ⟨y, hy⟩ := h x (List.mem_cons_self x xs)
    obtain ⟨ys, hys, hlen, hget⟩ := ih (fun z hz => h z (List.mem_cons_of_mem x hz))
    refine ⟨y :: ys, ?_, by simp [hlen], ?_⟩
    · simp only [mapExcept, hy, hys]
    · intro j z hz
      cases j with
      | zero =>
        simp only [List.getElem?_cons_zero, Option.some.injEq] at hz
        subst hz
        exact ⟨y, by simp, hy⟩
      | succ j' =>
        simp only [List.getElem?_cons_succ] at hz ⊢
        exact hget j' z hz

/-- When the item's `streets` score is not the empty list, the record builder
of `get_latlong` does not raise. -/
theorem mkLatLongRecord_ok (it : GeocodeItem)
    (h : it.scoring.fieldScore.streets ≠ some []) :
    ∃ rec, mkLatLongRecord it = .ok rec := by
  obtain ⟨v, hv⟩ : ∃ v, streetScore it.scoring.fieldScore.streets = .ok v := by
    cases hs : it.scoring.fieldScore.streets with
    | none => exact ⟨_, rfl⟩
    | some l =>
      cases l with
      | nil => exact absurd hs h
      | cons q qs => exact ⟨_, rfl⟩
  cases hm : mkLatLongRecord it with
  | ok rec => exact ⟨rec, rfl⟩
  | error e =>
    simp [mkLatLongRecord, hv] at hm

/-- When the result's `Street` score is not the empty list, the record
builder of `get_latlong_alternative` does not raise. -/
theorem mkAltRecord_ok (it : AltResult) (h : it.MatchQuality.Street ≠ some []) :
    ∃ rec, mkAltRecord it = .ok rec := by
  obtain ⟨v, hv⟩ : ∃ v, streetScore it.MatchQuality.Street = .ok v := by
    cases hs : it.MatchQuality.Street with
    | none => exact ⟨_, rfl⟩
    | some l =>
      cases l with
      | nil => exact absurd hs h
      | cons q qs => exact ⟨_, rfl⟩
  cases hm : mkAltRecord it with
  | ok rec => exact ⟨rec, rfl⟩
  | error e =>
    simp [mkAltRecord, hv] at hm

/-- C3: on a non-empty geocode response with `summarize=true`, both forward
geocoders return records in API order, one per processed item; under the API
contract that a response carries at most `limit` items, `get_latlong`
returns `min(limit, number of items)` records (its loop visits every item),
while `get_latlong_alternative` enforces the minimum locally. The
street-score hypotheses rule out the `IndexError` both loops would hit on an
empty `streets` score list. -/
theorem claim_C3_count_and_order (items : List GeocodeItem) (limit : Nat)
    (v0 : AltView) (vrest : List AltView) (limit2 : Nat)
    (h1 : items ≠ []) (h2 : items.length ≤ limit)
    (h3 : ∀ it ∈ items, it.scoring.fieldScore.streets ≠ some [])
    (h4 : ∀ it ∈ v0.Result.take limit2, it.MatchQuality.Street ≠ some []) :
    (∃ recs, get_latlong_process items true limit = .ok (.records recs) ∧
       recs.length = min limit items.length ∧
       ∀ (j : Nat) (it : GeocodeItem), items[j]? = some it →
         ∃ rec, recs[j]? = some rec ∧ mkLatLongRecord it = .ok rec) ∧
    (∃ recs, get_latlong_alternative_process (v0 :: vrest) true limit2 = .ok (.records recs) ∧
       recs.length = min limit2 v0.Result.length ∧
       ∀ (j : Nat) (it : AltResult), (v0.Result.take limit2)[j]? = some it →
         ∃ rec, recs[j]? = some rec ∧ mkAltRecord it = .ok rec) := by
  constructor
  · obtain ⟨recs, hrecs, hlen, hget⟩ :=
      mapExcept_ok_of_forall mkLatLongRecord items
        (fun it hit => mkLatLongRecord_ok it (h3 it hit))
    have hne : ¬ items.length = 0 := by
      simpa using fun hz => h1 (List.length_eq_zero.mp hz)
    refine ⟨recs, ?_, ?_, hget⟩
    · simp only [get_latlong_process, hne, if_false, if_true, hrecs]
    · rw [hlen, Nat.min_eq_right h2]
  · obtain ⟨recs, hrecs, hlen, hget⟩ :=
      mapExcept_ok_of_forall mkAltRecord (v0.Result.take limit2)
        (fun it hit => mkAltRecord_ok it (h4 it hit))
    refine ⟨recs, ?_, ?_, hget⟩
    · simp only [get_latlong_alternative_process, if_true, hrecs]
    · rw [hlen, List.length_take]

theorem claim_C3_count_and_order_witness :
    (∃ recs, get_latlong_process [sampleGeoItem] true 1 = .ok (.records recs) ∧
       recs.length = min 1 [sampleGeoItem].length ∧
       ∀ (j : Nat) (it : GeocodeItem), [sampleGeoItem][j]? = some it →
         ∃ rec, recs[j]? = some rec ∧ mkLatLongRecord it = .ok rec) ∧
    (∃ recs, get_latlong_alternative_process [{ Result := [] }] true 0 = .ok (.records recs) ∧
       recs.length = min 0 ({ Result := [] } : AltView).Result.length ∧
       ∀ (j : Nat) (it : AltResult),
         (({ Result := [] } : AltView).Result.take 0)[j]? = some it →
           ∃ rec, recs[j]? = some rec ∧ mkAltRecord it = .ok rec) :=
  claim_C3_count_and_order [sampleGeoItem] 1 { Result := [] } [] 0 (by decide) (by decide)
    (by decide) (by decide)

/-- C1: on a successful matrix-routing call, with destinations defaulting to
origins when absent, row `k` of the output table carries
`orig_index = k / m` and `dest_index = k % m` (for `m` destinations), the
coordinates of the `k / m`-th origin and the `k % m`-th destination in
original input order, and the `k`-th entries of the parallel
`travelTimes`/`distances` arrays. -/
theorem claim_C1_matrix_row_major (origins : List Coord) (destinations : Option (List Coord))
    (out : MatrixResponse) (dests : List Coord)
    (hd : dests = (match destinations with | Option.none => origins | some d => d))
    (h0 : out.status = Option.none)
    (ht : out.matrix.travelTimes.length = origins.length * dests.length)
    (hdi : out.matrix.distances.length = origins.length * dests.length)
    (hec : (errorCodesColumn out.matrix.errorCodes (origins.length * dests.length)).length =
      origins.length * dests.length)
    (k : Nat) (hk : k < origins.length * dests.length) :
    ∃ rows meta, calculate_matrix_routing origins destinations out = .ok (some (rows, meta)) ∧
      ∃ row, rows[k]? = some row ∧
        row.orig_index = k / dests.length ∧
        row.dest_index = k % dests.length ∧
        (∃ o, origins[k / dests.length]? = some o ∧
           row.latitude_x = o.latitude ∧ row.longitude_x = o.longitude) ∧
        (∃ d, dests[k % dests.length]? = some d ∧
           row.latitude_y = d.latitude ∧ row.longitude_y = d.longitude) ∧
        out.matrix.travelTimes[k]? = some row.travelTime ∧
        out.matrix.distances[k]? = some row.distance := by
  have hm : 0 < dests.length := by
    rcases Nat.eq_zero_or_pos dests.length with hz | hpos
    · rw [hz, Nat.mul_zero] at hk
      exact absurd hk (Nat.not_lt_zero k)
    · exact hpos
  have hdivlt : k / dests.length < origins.length :=
    Nat.div_lt_of_lt_mul (Nat.mul_comm origins.length dests.length ▸ hk)
  have hmodlt : k % dests.length < dests.length := Nat.mod_lt k hm
  have ho : origins[k / dests.length]? = some origins[k / dests.length] :=
    List.getElem?_eq_getElem hdivlt
  have hdst : dests[k % dests.length]? = some dests[k % dests.length] :=
    List.getElem?_eq_getElem hmodlt
  have hio : (indexFrom 0 origins)[k / dests.length]? =
      some (origins[k / dests.length], k / dests.length) := by
    rw [indexFrom_getElem?, ho]
    simp
  have hid : (indexFrom 0 dests)[k % dests.length]? =
      some (dests[k % dests.length], k % dests.length) := by
    rw [indexFrom_getElem?, hdst]
    simp
  have hprod : (cartesianJoin (indexFrom 0 origins) (indexFrom 0 dests))[k]? =
      some ((origins[k / dests.length], k / dests.length),
            (dests[k % dests.length], k % dests.length)) := by
    refine cartesianJoin_getElem? ?_ ?_
    · rw [indexFrom_length]
      exact hio
    · rw [indexFrom_length]
      exact hid
  have hsort : sortValues idxLe (cartesianJoin (indexFrom 0 origins) (indexFrom 0 dests)) =
      cartesianJoin (indexFrom 0 origins) (indexFrom 0 dests) :=
    sortValues_eq_self idxLe (pairwise_cartesianJoin_idxLe origins dests 0 0)
  have hjl : (cartesianJoin (indexFrom 0 origins) (indexFrom 0 dests)).length =
      origins.length * dests.length := by
    rw [cartesianJoin_length, indexFrom_length, indexFrom_length]
  have hkt : k < out.matrix.travelTimes.length := by rw [ht]; exact hk
  have hkd : k < out.matrix.distances.length := by rw [hdi]; exact hk
  have hke : k < (errorCodesColumn out.matrix.errorCodes
      (origins.length * dests.length)).length := by rw [hec]; exact hk
  have htk := List.getElem?_eq_getElem hkt
  have hdk := List.getElem?_eq_getElem hkd
  have hek := List.getElem?_eq_getElem hke
  have hattach := attachColumns_getElem? hprod htk hdk hek
  simp only [calculate_matrix_routing, h0, Option.isSome_none, Bool.false_eq_true, if_false,
    ← hd, hsort, hjl, if_pos (And.intro ht (And.intro hdi hec))]
  exact ⟨_, _, rfl, _, hattach, rfl, rfl, ⟨_, ho, rfl, rfl⟩, ⟨_, hdst, rfl, rfl⟩, htk, hdk⟩

theorem claim_C1_matrix_row_major_witness :
    ∃ rows meta,
      calculate_matrix_routing ([⟨1, 2⟩, ⟨3, 4⟩] : List Coord) Option.none
          { status := Option.none, matrixId := "m",
            matrix := { travelTimes := [10, 20, 30, 40], distances := [5, 6, 7, 8],
                        errorCodes := Option.none, numOrigins := 2, numDestinations := 2 },
            regionDefinition := "world" } = .ok (some (rows, meta)) ∧
      ∃ row, rows[3]? = some row ∧
        row.orig_index = 3 / ([⟨1, 2⟩, ⟨3, 4⟩] : List Coord).length ∧
        row.dest_index = 3 % ([⟨1, 2⟩, ⟨3, 4⟩] : List Coord).length ∧
        (∃ o, ([⟨1, 2⟩, ⟨3, 4⟩] : List Coord)[3 / ([⟨1, 2⟩, ⟨3, 4⟩] : List Coord).length]? =
            some o ∧ row.latitude_x = o.latitude ∧ row.longitude_x = o.longitude) ∧
        (∃ d, ([⟨1, 2⟩, ⟨3, 4⟩] : List Coord)[3 % ([⟨1, 2⟩, ⟨3, 4⟩] : List Coord).length]? =
            some d ∧ row.latitude_y = d.latitude ∧ row.longitude_y = d.longitude) ∧
        ([10, 20, 30, 40] : List Int)[3]? = some row.travelTime ∧
        ([5, 6, 7, 8] : List Int)[3]? = some row.distance :=
  claim_C1_matrix_row_major ([⟨1, 2⟩, ⟨3, 4⟩] : List Coord) Option.none
    { status := Option.none, matrixId := "m",
      matrix := { travelTimes := [10, 20, 30, 40], distances := [5, 6, 7, 8],
                  errorCodes := Option.none, numOrigins := 2, numDestinations := 2 },
      regionDefinition := "world" }
    ([⟨1, 2⟩, ⟨3, 4⟩] : List Coord) rfl rfl rfl rfl rfl 3 (by decide)
